import Mathlib

/-!
Verification of the `backup_win` repository against its specification.

The development shallowly embeds the two Python modules the claims are about:

* `src/backup_win/utils.py` — the `BackupManager` class (eligibility scanning,
  subfolder copy with optional MD5 verification, conditional source deletion,
  run report); embedded in namespace `BackupWin`.
* `src/src/utils.py` — the checksum-manifest utilities (`calculate_md5_md5sum_batch`,
  `write_md5_from_dict`, `compare_md5` with its inner `read_md5_file`);
  embedded in namespace `SrcUtils`.

Filesystem and OS effects are made explicit: each file record carries the
outcome of the OS operations the Python code performs on it (whether
`shutil.copy2` succeeds, the MD5 digest of the source and of the destination
copy — `none` when the digest computation raises — and whether `stat` raises
while probing the modification time), and each subfolder records whether
`shutil.rmtree` would succeed on it.  Python exceptions are modelled with
`Option`/`Bool` results, exactly where the source catches them.
-/

namespace BackupWin

/-- Outcome of transferring one candidate subfolder (spec's `TransferOutcome`).
`backup_subfolder` returns `True` exactly on `Succeeded`; an exception during
the copy loop yields `FailedCopy`, a failed `verify_files` check raises
`ValueError`, caught by the same handler, yielding `FailedVerification`. -/
inductive TransferOutcome where
  | Succeeded
  | FailedCopy
  | FailedVerification
deriving DecidableEq, Repr

/-- One regular file found by `path_subfolder.rglob("*")` (directories yielded
by `rglob` are dropped by the `is_file()` checks in the source).  `rel` is the
path of the file relative to its subfolder, as components.  `mtime` is
`st_mtime`; `statError` records whether probing it raises.  `copyOk` records
whether `shutil.copy2` succeeds for this file, and `srcDigest` / `dstDigest`
the MD5 digests of the source file and of its destination copy (`none` when
the digest computation raises, e.g. the file is unreadable). -/
structure FileRec where
  rel : List String
  mtime : Int
  statError : Bool
  copyOk : Bool
  srcDigest : Option String
  dstDigest : Option String
deriving DecidableEq, Repr

/-- One entry of `src_dir.iterdir()`: an immediate child of the source root.
`isDir` is `is_dir()`; `files` are the regular files anywhere inside it
(recursively); `rmtreeOk` records whether `shutil.rmtree` would fully succeed
on it. -/
structure Entry where
  name : String
  isDir : Bool
  files : List FileRec
  rmtreeOk : Bool
deriving DecidableEq, Repr

/-- The configuration fields of `config.json` that the embedded code reads
(`src_dir` and `log_dir` only feed path construction and logging and are not
needed by any claim).  `backup_age_seconds` is `backup_age_days * 24 * 60 * 60`
as computed in `BackupManager.__init__`.  `dst_dir` is kept as path
components. -/
structure Config where
  excluded_patterns : List String
  backup_age_seconds : Int
  verify_copy : Bool
  delete_source : Bool
  dst_dir : List String
deriving DecidableEq, Repr

/-- `starLoop m s` checks whether `m` accepts some suffix of `s` (including
`s` itself and the empty suffix): the search a glob `*` performs over the
remainder of the name. -/
def starLoop (m : List Char → Bool) : List Char → Bool
  | [] => m []
  | d :: s => m (d :: s) || starLoop m s

/-- Split a character list at its first `']'`: the characters before it and
the characters after it.  `none` when no `']'` occurs. -/
def findClose : List Char → Option (List Char × List Char)
  | [] => none
  | ']' :: rest => some ([], rest)
  | c :: rest => (findClose rest).map (fun pr => (c :: pr.1, pr.2))

/-- The bracket-class scan of `fnmatch.translate` for the characters after a
`'['`: an optional leading `'!'` and an optional leading `']'` belong to the
class body, which then extends to the next `']'`.  Returns the class body
and the pattern after the closing `']'`; `none` (an unterminated class, so
the `'['` is a literal) when no closing `']'` is found. -/
def classSplit : List Char → Option (List Char × List Char)
  | '!' :: ']' :: rest => (findClose rest).map (fun pr => ('!' :: ']' :: pr.1, pr.2))
  | '!' :: rest => (findClose rest).map (fun pr => ('!' :: pr.1, pr.2))
  | ']' :: rest => (findClose rest).map (fun pr => (']' :: pr.1, pr.2))
  | rest => (findClose rest).map (fun pr => (pr.1, pr.2))

/-- Membership of a character in a (non-negated) class body: `a-b` spans a
codepoint range, a hyphen at the end (or start) of the body is literal, any
other character matches literally. -/
def classBody : List Char → Char → Bool
  | [], _ => false
  | a :: '-' :: b :: rest, c => (a ≤ c && c ≤ b) || classBody rest c
  | a :: rest, c => (a = c) || classBody rest c

/-- Membership of a character in a class body, honouring a leading `'!'` as
negation (`[!seq]`). -/
def classMatch (seq : List Char) (c : Char) : Bool :=
  match seq with
  | '!' :: body => !(classBody body c)
  | body => classBody body c

/-- Worker for `globMatch`.  Every step consumes at least one pattern
character (`'*'`, `'?'`, a literal, or a whole `[seq]` class), so running it
with the pattern's length as fuel evaluates the match completely and the
fuel-exhausted arm is never reached; the fuel only makes the recursion
structural. -/
def globMatchAux : Nat → List Char → List Char → Bool
  | _, [], s => s.isEmpty
  | 0, _ :: _, _ => false
  | fuel + 1, '*' :: p, s => starLoop (globMatchAux fuel p) s
  | fuel + 1, '?' :: p, s =>
    match s with
    | [] => false
    | _ :: s2 => globMatchAux fuel p s2
  | fuel + 1, '[' :: p, s =>
    match classSplit p with
    | some (seq, rest) =>
      match s with
      | [] => false
      | c :: s2 => classMatch seq c && globMatchAux fuel rest s2
    | none =>
      match s with
      | [] => false
      | c :: s2 => '[' = c && globMatchAux fuel p s2
  | fuel + 1, c :: p, s =>
    match s with
    | [] => false
    | d :: s2 => c = d && globMatchAux fuel p s2

/-- Shell-glob matching of a pattern against an item name, as
`pathlib.PurePath.match` (via `fnmatch.translate`) performs for a
single-component relative pattern: `*` matches any run of characters, `?`
matches one character, `[seq]` / `[!seq]` match one character against a
class (with `a-b` ranges; an unterminated `[` is a literal), and other
characters match literally and case-sensitively. -/
def globMatch (p s : List Char) : Bool :=
  globMatchAux p.length p s

/-- `any(path_subfolder.match(pattern) for pattern in excluded)` from
`get_subfolders_to_backup`, with each pattern matched against the item name. -/
def matchesAny (patterns : List String) (name : String) : Bool :=
  patterns.any (fun pat => globMatch pat.data name.data)

/-- `should_backup_subfolder` (inner function of `get_subfolders_to_backup`):
walk every regular file in the subfolder; if probing a file raises, the
exception handler returns `False`; if `now - st_mtime < backup_age_seconds`
for some file, return `False`; otherwise return `True`.  Since either a raise
or a recent file makes the loop's result `False` no matter which is met first,
the result is the conjunction over all files. -/
def should_backup_subfolder (backupAgeSeconds now : Int) (e : Entry) : Bool :=
  e.files.all (fun f => !f.statError && !(now - f.mtime < backupAgeSeconds))

/-- `BackupManager.get_subfolders_to_backup`: keep, in iteration order, every
immediate child of the source root that is a directory, matches no exclusion
pattern, and passes `should_backup_subfolder`.

When some configured pattern is the empty string, the scan yields `[]`:
`PurePath.match("")` raises `ValueError("empty pattern")`, which the
function's outer handler turns into `return []` as soon as a directory
entry reaches that pattern, and a directory entry that does not reach it
was excluded by an earlier pattern — so in every case nothing is
collected. -/
def get_subfolders_to_backup (cfg : Config) (now : Int) (entries : List Entry) : List Entry :=
  if cfg.excluded_patterns.any (fun pat => pat == "") then []
  else
    entries.filter (fun e =>
      e.isDir && !matchesAny cfg.excluded_patterns e.name &&
        should_backup_subfolder cfg.backup_age_seconds now e)

/-- `BackupManager.verify_files`: compute the MD5 digest of the source file
and of the destination file and compare them; if either computation raises
(missing or unreadable file), the handler logs and returns `False`.  The two
digests are passed in as `Option`s, `none` standing for a raised exception. -/
def verify_files (srcDigest dstDigest : Option String) : Bool :=
  match srcDigest, dstDigest with
  | some s, some d => s == d
  | _, _ => false

/-- The `TransferOutcome` of `BackupManager.backup_subfolder` on one
candidate: if any `shutil.copy2` raises, the handler returns `False`
(`FailedCopy`); otherwise, when `verify_copy` is set, a failed
`verify_files` check raises `ValueError`, caught by the same handler
(`FailedVerification`); otherwise the method returns `True` (`Succeeded`). -/
def backup_subfolder_outcome (verifyCopy : Bool) (files : List FileRec) : TransferOutcome :=
  if files.all (fun f => f.copyOk) then
    if verifyCopy then
      if files.all (fun f => verify_files f.srcDigest f.dstDigest) then
        TransferOutcome.Succeeded
      else TransferOutcome.FailedVerification
    else TransferOutcome.Succeeded
  else TransferOutcome.FailedCopy

/-- The boolean `backup_subfolder` actually returns to `run_backup`. -/
def backup_subfolder (verifyCopy : Bool) (files : List FileRec) : Bool :=
  decide (backup_subfolder_outcome verifyCopy files = TransferOutcome.Succeeded)

/-- `BackupManager.safe_delete_subfolder`: when `delete_source` is enabled,
run `shutil.rmtree` and return `True`; a raise is caught and `False` is
returned; with `delete_source` disabled nothing is removed and the final
`return False` is reached. -/
def safe_delete_subfolder (cfg : Config) (e : Entry) : Bool :=
  if cfg.delete_source then e.rmtreeOk else false

/-- The record `run_backup` accumulates for one processed candidate:
its outcome, whether `safe_delete_subfolder` reached the `shutil.rmtree`
call (`deletionInvoked`), and whether the source was actually removed
(`deleted`). -/
structure CandidateResult where
  entry : Entry
  outcome : TransferOutcome
  deletionInvoked : Bool
  deleted : Bool
deriving DecidableEq, Repr

/-- Processing of one candidate inside `run_backup`'s loop: run
`backup_subfolder`; only when it returned `True` and `delete_source` is set
is `safe_delete_subfolder` called (which re-checks `delete_source` before
`shutil.rmtree`).  The outcome is recorded before any deletion is
attempted. -/
def processCandidate (cfg : Config) (e : Entry) : CandidateResult :=
  let oc := backup_subfolder_outcome cfg.verify_copy e.files
  let callDelete := decide (oc = TransferOutcome.Succeeded) && cfg.delete_source
  { entry := e, outcome := oc,
    deletionInvoked := callDelete,
    deleted := callDelete && safe_delete_subfolder cfg e }

/-- `BackupManager.generate_report`: the lines of the report file, in order.
The `datetime` values (start, end, duration) are rendered by the excluded
formatting collaborator and enter here as opaque strings. -/
def generate_report (successful failed : List Entry)
    (startStr endStr durStr : String) : List String :=
  ["Backup Task Report",
   String.mk (List.replicate 50 '='),
   "Start Time: " ++ startStr,
   "End Time: " ++ endStr,
   "Total Duration: " ++ durStr,
   "Successful: " ++ toString successful.length,
   "Failed: " ++ toString failed.length,
   "\nFailed Files:"]
  ++ failed.map (fun e => "- " ++ e.name)

/-- The observable state of one `run_backup` invocation: the per-candidate
records, the `successful_backups` and `failed_backups` ledgers, and the
report (`none` when the early `return` for an empty candidate list skips
`generate_report`). -/
structure RunResult where
  results : List CandidateResult
  successful : List Entry
  failed : List Entry
  report : Option (List String)
deriving DecidableEq, Repr

/-- `BackupManager.run_backup`: scan for candidates; when none are found,
return before processing (empty ledgers, no report); otherwise process each
candidate in order, sort it into `successful_backups` or `failed_backups`
by the boolean `backup_subfolder` returned, and finally generate the
report. -/
def run_backup (cfg : Config) (now : Int) (startStr endStr durStr : String)
    (entries : List Entry) : RunResult :=
  let cands := get_subfolders_to_backup cfg now entries
  let results := cands.map (processCandidate cfg)
  let successful :=
    (results.filter (fun r => decide (r.outcome = TransferOutcome.Succeeded))).map
      (fun r => r.entry)
  let failed :=
    (results.filter (fun r => !decide (r.outcome = TransferOutcome.Succeeded))).map
      (fun r => r.entry)
  { results := results, successful := successful, failed := failed,
    report :=
      if cands.isEmpty then none
      else some (generate_report successful failed startStr endStr durStr) }

end BackupWin

namespace SrcUtils

/-- A regular file considered by `calculate_md5_md5sum_batch`: its path
relative to the batch root (as the characters of the string
`str(path_file.relative_to(path))`) and the result of running `md5sum` on it
(`none` when the subprocess raises, e.g. a read failure). -/
structure DigFile where
  rel : List Char
  digest : Option (List Char)
deriving DecidableEq, Repr

/-- `calculate_md5_md5sum_batch`: for each file, try `md5sum`; on an
exception, log and `continue`, so the file contributes no entry; otherwise
record `relative_path -> digest`.  `rglob` yields pairwise distinct relative
paths, so the dict insertions never overwrite and the dict is the
association list of the successful files in iteration order. -/
def calculate_md5_md5sum_batch (files : List DigFile) : List (List Char × List Char) :=
  files.filterMap (fun f => f.digest.map (fun dg => (f.rel, dg)))

/-- The characters Python `str.strip()` removes — exactly those for which
`str.isspace()` holds: the ASCII whitespace `'\t'`..`'\r'` and `' '`, the
file/group/record/unit separators U+001C..U+001F, next-line U+0085,
no-break space U+00A0, ogham space U+1680, the typographic spaces
U+2000..U+200A, the line and paragraph separators U+2028 and U+2029,
narrow no-break space U+202F, medium mathematical space U+205F, and
ideographic space U+3000. -/
def isPyWs (c : Char) : Bool :=
  c = ' ' || ('\t' ≤ c && c ≤ '\x0d')
    || ('\x1c' ≤ c && c ≤ '\x1f')
    || c = '\x85' || c = '\xa0' || c = '\u1680'
    || ('\u2000' ≤ c && c ≤ '\u200a')
    || c = '\u2028' || c = '\u2029' || c = '\u202f' || c = '\u205f' || c = '\u3000'

/-- Python `str.strip()` on a character list: drop leading and trailing
whitespace. -/
def stripChars (l : List Char) : List Char :=
  ((l.dropWhile isPyWs).reverse.dropWhile isPyWs).reverse

/-- `write_md5_from_dict`: one line `<digest>  <path>\n` per entry, in dict
(insertion) order; the whole file is the concatenation of the lines. -/
def writeManifest (m : List (List Char × List Char)) : List Char :=
  (m.map (fun pd => pd.2 ++ ' ' :: ' ' :: pd.1 ++ ['\n'])).flatten

/-- Iteration over the lines of a text file (`for line in f`): split after
each newline, keeping the `'\n'` at the end of each line; a final fragment
without a newline is its own line; an empty file yields no lines. -/
def splitLines : List Char → List (List Char)
  | [] => []
  | c :: rest =>
    if c = '\n' then ['\n'] :: splitLines rest
    else
      match splitLines rest with
      | [] => [[c]]
      | l :: ls => (c :: l) :: ls

/-- Python `line.split("  ", 1)` when it yields two parts: the text before
the leftmost occurrence of two consecutive spaces, and everything after it;
`none` when `"  "` does not occur (the two-variable unpacking in
`read_md5_file` would raise `ValueError`). -/
def splitTwoSpaces : List Char → Option (List Char × List Char)
  | [] => none
  | [_] => none
  | c1 :: c2 :: rest =>
    if c1 = ' ' && c2 = ' ' then some ([], rest)
    else
      match splitTwoSpaces (c2 :: rest) with
      | some (a, b) => some (c1 :: a, b)
      | none => none

/-- One iteration of the loop in `read_md5_file`:
`md5, file = line.split("  ", 1)` followed by `.strip()` on both; the row is
returned as `(path, digest)` to mirror the dict orientation of
`write_md5_from_dict`. -/
def readLine (line : List Char) : Option (List Char × List Char) :=
  (splitTwoSpaces line).map (fun ab => (stripChars ab.2, stripChars ab.1))

/-- The whole loop of `read_md5_file`: read every line in order; a line
without `"  "` raises, which `read_md5_file` does not catch (`none`). -/
def readLines : List (List Char) → Option (List (List Char × List Char))
  | [] => some []
  | l :: ls =>
    match readLine l, readLines ls with
    | some e, some es => some (e :: es)
    | _, _ => none

/-- `read_md5_file`: parse a manifest file's content back into the list of
`(relative path, digest)` rows. -/
def readManifest (s : List Char) : Option (List (List Char × List Char)) :=
  readLines (splitLines s)

end SrcUtils

namespace SrcUtils

/-- The comparison a row of `df_md5` undergoes in `compare_md5`
(`df_md5["md5_1"] != df_md5["md5_2"]`): two present digests compare by
string inequality; a missing side (pandas `NaN`, arising from an outer-join
row with no partner) compares unequal to anything. -/
def md5_neq : Option (List Char) → Option (List Char) → Bool
  | some a, some b => a != b
  | _, _ => true

/-- The outer join `df_1.merge(df_2, on="file", how="outer")` of
`compare_md5`, as the list of rows `(file, md5_1, md5_2)`: one row per
entry of the first manifest, carrying the second manifest's digest for the
same path when present, followed by one row per entry of the second
manifest whose path is absent from the first, with a missing first digest.
(pandas sorts the keys of an outer join; the claims are about which rows
exist, not their order.) -/
def compare_md5_table (m1 m2 : List (List Char × List Char)) :
    List (List Char × Option (List Char) × Option (List Char)) :=
  m1.map (fun kv => (kv.1, some kv.2, m2.lookup kv.1))
    ++ (m2.filter (fun kv => !((m1.map Prod.fst).contains kv.1))).map
        (fun kv => (kv.1, none, some kv.2))

/-- `df_md5_diff`: the rows of the comparison table whose digests differ
(including one-sided rows). -/
def compare_md5_diff (m1 m2 : List (List Char × List Char)) :
    List (List Char × Option (List Char) × Option (List Char)) :=
  (compare_md5_table m1 m2).filter (fun r => md5_neq r.2.1 r.2.2)

/-- The pass/fail verdict of `compare_md5`: pass iff `df_md5_diff` is
empty. -/
def md5_all_match (m1 m2 : List (List Char × List Char)) : Bool :=
  (compare_md5_diff m1 m2).isEmpty

/-- The reconciliation `compare_md5` actually produces from two parsed
manifests.  When either manifest is empty, `read_md5_file` builds
`pd.DataFrame([])` — a frame with *no* columns — and
`df_1.merge(df_2, on="file", how="outer")` raises an uncaught
`KeyError("file")`, so no comparison table or diff is produced (`none`).
With both manifests nonempty the merge succeeds and the result is the
outer-join table together with its mismatch subset. -/
def compare_md5 (m1 m2 : List (List Char × List Char)) :
    Option (List (List Char × Option (List Char) × Option (List Char)) ×
      List (List Char × Option (List Char) × Option (List Char))) :=
  if m1.isEmpty || m2.isEmpty then none
  else some (compare_md5_table m1 m2, compare_md5_diff m1 m2)

/-- The side conditions under which the manifest file format round-trips
exactly: the digest contains no character `str.strip()` removes (true of
every MD5 hex digest), and the path contains no newline and no carriage
return and neither starts nor ends with a character `str.strip()` removes
(so the `.strip()` in `read_md5_file` removes only the line terminator,
never part of the path; `isPyWs` is the full `str.isspace()` set, so e.g. a
path ending in U+001C or U+00A0 is outside these conditions, exactly as the
program corrupts it). -/
abbrev CleanEntry (pd : List Char × List Char) : Prop :=
  (∀ c ∈ pd.2, isPyWs c = false)
    ∧ (∀ c ∈ pd.1, c ≠ '\n' ∧ c ≠ '\x0d')
    ∧ pd.1.dropWhile isPyWs = pd.1
    ∧ pd.1.reverse.dropWhile isPyWs = pd.1.reverse

end SrcUtils

namespace BackupWin

/-- A wall-clock instant at the second granularity used by
`datetime.now().strftime("%Y%m%d_%H%M%S")` in `BackupManager.__init__`. -/
structure DateTime where
  year : Nat
  month : Nat
  day : Nat
  hour : Nat
  minute : Nat
  second : Nat
deriving DecidableEq, Repr

/-- The decimal digit character for `n % 10`. -/
def decDigit (n : Nat) : Char :=
  if n = 0 then '0' else if n = 1 then '1' else if n = 2 then '2'
  else if n = 3 then '3' else if n = 4 then '4' else if n = 5 then '5'
  else if n = 6 then '6' else if n = 7 then '7' else if n = 8 then '8'
  else '9'

/-- `n` rendered as exactly `w` decimal digits, zero-padded, as `strftime`
renders each field of `%Y%m%d_%H%M%S`. -/
def padNum : Nat → Nat → List Char
  | 0, _ => []
  | w + 1, n => padNum w (n / 10) ++ [decDigit (n % 10)]

/-- The characters of `self.timestamp`, i.e.
`datetime.now().strftime("%Y%m%d_%H%M%S")`. -/
def timestampChars (t : DateTime) : List Char :=
  padNum 4 t.year ++ padNum 2 t.month ++ padNum 2 t.day
    ++ '_' :: (padNum 2 t.hour ++ padNum 2 t.minute ++ padNum 2 t.second)

/-- `self.timestamp` as a string. -/
def timestampStr (t : DateTime) : String :=
  String.mk (timestampChars t)

/-- Field bounds every real `datetime` satisfies (each `strftime` field fits
its zero-padded width). -/
abbrev BoundedDT (t : DateTime) : Prop :=
  t.year < 10000 ∧ t.month < 100 ∧ t.day < 100
    ∧ t.hour < 100 ∧ t.minute < 100 ∧ t.second < 100

/-- Decimal value of a digit string, most significant first. -/
def readNat (cs : List Char) : Nat :=
  cs.foldl (fun a c => a * 10 + (c.toNat - 48)) 0

/-- The destination path `backup_subfolder` computes for one source file:
`dst_dir / self.timestamp / relative_path / <file within subfolder>`, as
path components. -/
def dstFilePath (dstDir : List String) (t : DateTime) (candName : String)
    (frel : List String) : List String :=
  dstDir ++ timestampStr t :: candName :: frel

/-- Every destination file path a run would write: for each candidate
subfolder, each of its files lands at `dstFilePath`.  (A copy failure stops
a candidate's loop early, so the actually-written paths are a sub-list of
these; every written path still appears here.) -/
def writtenPaths (cfg : Config) (t : DateTime) (now : Int)
    (entries : List Entry) : List (List String) :=
  (get_subfolders_to_backup cfg now entries).flatMap
    (fun c => c.files.map (fun f => dstFilePath cfg.dst_dir t c.name f.rel))

end BackupWin

/-- C2: with a well-formed pattern set (no empty pattern — an empty pattern
makes `PurePath.match` raise and the whole scan return `[]`), a non-excluded
immediate child directory whose eligibility probe does not raise is a
candidate iff every regular file anywhere inside it is at least
`backup_age_seconds` old ("older than the configured eligibility window",
where the source counts a file as recent exactly when `now - mtime <
backup_age_seconds`); in particular a subfolder with no files at any depth is
included, and one file modified within the window excludes the subfolder. -/
theorem claim_C2 (cfg : BackupWin.Config) (now : Int) (entries : List BackupWin.Entry)
    (e : BackupWin.Entry) (hmem : e ∈ entries) (hdir : e.isDir = true)
    (hvp : ∀ pat ∈ cfg.excluded_patterns, pat ≠ "")
    (hpat : BackupWin.matchesAny cfg.excluded_patterns e.name = false)
    (herr : ∀ f ∈ e.files, f.statError = false) :
    (e ∈ BackupWin.get_subfolders_to_backup cfg now entries ↔
      ∀ f ∈ e.files, cfg.backup_age_seconds ≤ now - f.mtime)
    ∧ (e.files = [] → e ∈ BackupWin.get_subfolders_to_backup cfg now entries)
    ∧ (∀ f ∈ e.files, now - f.mtime < cfg.backup_age_seconds →
        e ∉ BackupWin.get_subfolders_to_backup cfg now entries) := by
  have hvg : cfg.excluded_patterns.any (fun pat => pat == "") = false := by
    rw [List.any_eq_false]
    intro pat hp
    simpa using hvp pat hp
  have hg : BackupWin.get_subfolders_to_backup cfg now entries =
      entries.filter (fun e =>
        e.isDir && !BackupWin.matchesAny cfg.excluded_patterns e.name &&
          BackupWin.should_backup_subfolder cfg.backup_age_seconds now e) := by
    rw [BackupWin.get_subfolders_to_backup, if_neg]
    simp [hvg]
  have hiff : e ∈ BackupWin.get_subfolders_to_backup cfg now entries ↔
      ∀ f ∈ e.files, cfg.backup_age_seconds ≤ now - f.mtime := by
    rw [hg]
    constructor
    · intro hin f hf
      rcases List.mem_filter.mp hin with ⟨-, hpred⟩
      simp only [Bool.and_eq_true] at hpred
      have hall := hpred.2
      rw [BackupWin.should_backup_subfolder, List.all_eq_true] at hall
      have h2 := hall f hf
      simp only [Bool.and_eq_true, Bool.not_eq_true', decide_eq_false_iff_not] at h2
      omega
    · intro h
      refine List.mem_filter.mpr ⟨hmem, ?_⟩
      simp only [Bool.and_eq_true]
      refine ⟨⟨hdir, by simp [hpat]⟩, ?_⟩
      rw [BackupWin.should_backup_subfolder, List.all_eq_true]
      intro f hf
      have h1 := herr f hf
      have h2 := h f hf
      simp only [Bool.and_eq_true, Bool.not_eq_true', h1, decide_eq_false_iff_not, true_and]
      omega
  refine ⟨hiff, ?_, ?_⟩
  · intro hnil
    rw [hiff, hnil]
    intro f hf
    cases hf
  · intro f hf hrecent hin
    have := (hiff.mp hin) f hf
    omega

/-- Witness for C2 at a concrete run: a source root with one old-file
subfolder (included), one empty subfolder (included), and the exclusion of a
subfolder holding a recently modified file. -/
theorem claim_C2_witness :
    (let cfg : BackupWin.Config := ⟨[], 100, true, true, ["dst"]⟩
     let fOld : BackupWin.FileRec := ⟨["a.txt"], 0, false, true, some "d", some "d"⟩
     let fNew : BackupWin.FileRec := ⟨["b.txt"], 950, false, true, some "d", some "d"⟩
     let eOld : BackupWin.Entry := ⟨"old", true, [fOld], true⟩
     let eEmpty : BackupWin.Entry := ⟨"empty", true, [], true⟩
     let eNew : BackupWin.Entry := ⟨"new", true, [fNew], true⟩
     (eOld ∈ BackupWin.get_subfolders_to_backup cfg 1000 [eOld, eEmpty, eNew] ↔
        ∀ f ∈ eOld.files, cfg.backup_age_seconds ≤ 1000 - f.mtime)
      ∧ (eEmpty.files = [] →
          eEmpty ∈ BackupWin.get_subfolders_to_backup cfg 1000 [eOld, eEmpty, eNew])
      ∧ (∀ f ∈ eNew.files, 1000 - f.mtime < cfg.backup_age_seconds →
          eNew ∉ BackupWin.get_subfolders_to_backup cfg 1000 [eOld, eEmpty, eNew])) := by
  refine ⟨(claim_C2 _ 1000 _ _ (by decide) (by decide) (by decide) (by decide) (by decide)).1,
          (claim_C2 _ 1000 _ _ (by decide) (by decide) (by decide) (by decide) (by decide)).2.1,
          (claim_C2 _ 1000 _ _ (by decide) (by decide) (by decide) (by decide) (by decide)).2.2⟩

/-- C6: an item whose name matches some configured exclusion pattern never
appears in the candidate set, regardless of its files' modification ages. -/
theorem claim_C6 (cfg : BackupWin.Config) (now : Int) (entries : List BackupWin.Entry)
    (e : BackupWin.Entry)
    (hpat : BackupWin.matchesAny cfg.excluded_patterns e.name = true) :
    e ∉ BackupWin.get_subfolders_to_backup cfg now entries := by
  intro hin
  rw [BackupWin.get_subfolders_to_backup] at hin
  by_cases hg : cfg.excluded_patterns.any (fun pat => pat == "") = true
  · rw [if_pos hg] at hin
    cases hin
  · rw [if_neg hg] at hin
    rcases List.mem_filter.mp hin with ⟨-, hpred⟩
    simp only [Bool.and_eq_true, Bool.not_eq_eq_eq_not, Bool.not_true] at hpred
    exact absurd hpat (by simp [hpred.1.2])

/-- Witness for C6: a subfolder named `temp_data` matching pattern `temp*`
is excluded even though its only file is far older than the window. -/
theorem claim_C6_witness :
    (let cfg : BackupWin.Config := ⟨["temp*"], 100, true, true, ["dst"]⟩
     let f : BackupWin.FileRec := ⟨["a.txt"], 0, false, true, some "d", some "d"⟩
     let e : BackupWin.Entry := ⟨"temp_data", true, [f], true⟩
     BackupWin.matchesAny cfg.excluded_patterns e.name = true
      ∧ e ∉ BackupWin.get_subfolders_to_backup cfg 1000000 [e]) :=
  ⟨by decide, claim_C6 _ 1000000 _ _ (by decide)⟩

/-- C1: for every candidate processed in a run, the deletion of its source
(the `shutil.rmtree` call inside `safe_delete_subfolder`) is performed iff
that candidate's outcome is `Succeeded` and the policy's `delete_source`
flag is enabled; and an actual removal of the source implies the same, so
deletion never occurs for a candidate with outcome `FailedCopy` or
`FailedVerification`. -/
theorem claim_C1 (cfg : BackupWin.Config) (now : Int) (s e d : String)
    (entries : List BackupWin.Entry) (r : BackupWin.CandidateResult)
    (hr : r ∈ (BackupWin.run_backup cfg now s e d entries).results) :
    (r.deletionInvoked = true ↔
      (r.outcome = BackupWin.TransferOutcome.Succeeded ∧ cfg.delete_source = true))
    ∧ (r.deleted = true →
      (r.outcome = BackupWin.TransferOutcome.Succeeded ∧ cfg.delete_source = true)) := by
  have hr2 : r ∈ (BackupWin.get_subfolders_to_backup cfg now entries).map
      (BackupWin.processCandidate cfg) := hr
  rcases List.mem_map.mp hr2 with ⟨c, -, rfl⟩
  constructor
  · simp [BackupWin.processCandidate]
  · intro hdel
    simp only [BackupWin.processCandidate, Bool.and_eq_true, decide_eq_true_eq] at hdel
    exact hdel.1

/-- Witness for C1 at a concrete run with one succeeded and one
copy-failed candidate. -/
theorem claim_C1_witness :
    (let cfg : BackupWin.Config := ⟨[], 100, true, true, ["dst"]⟩
     let fBad : BackupWin.FileRec := ⟨["b.txt"], 0, false, false, some "d", some "d"⟩
     let eBad : BackupWin.Entry := ⟨"bad", true, [fBad], true⟩
     let r := BackupWin.processCandidate cfg eBad
     (r.deletionInvoked = true ↔
        (r.outcome = BackupWin.TransferOutcome.Succeeded ∧ cfg.delete_source = true))
      ∧ (r.deleted = true →
        (r.outcome = BackupWin.TransferOutcome.Succeeded ∧ cfg.delete_source = true))) :=
  claim_C1 _ 1000 "s" "e" "d"
    [⟨"good", true, [⟨["a.txt"], 0, false, true, some "d", some "d"⟩], true⟩,
     ⟨"bad", true, [⟨["b.txt"], 0, false, false, some "d", some "d"⟩], true⟩] _
    (by decide)

/-- C7: a candidate whose transfer succeeded keeps outcome `Succeeded` even
when the subsequent source deletion fails: it is recorded in the
`successful_backups` ledger, not in `failed_backups`, its source is simply
not removed, and the run's report is generated from those unchanged
ledgers. -/
theorem claim_C7 (cfg : BackupWin.Config) (now : Int) (s e d : String)
    (entries : List BackupWin.Entry) (c : BackupWin.Entry)
    (hc : c ∈ BackupWin.get_subfolders_to_backup cfg now entries)
    (hoc : BackupWin.backup_subfolder_outcome cfg.verify_copy c.files =
      BackupWin.TransferOutcome.Succeeded)
    (hdel : c.rmtreeOk = false) :
    (BackupWin.processCandidate cfg c).outcome = BackupWin.TransferOutcome.Succeeded
    ∧ (BackupWin.processCandidate cfg c).deleted = false
    ∧ c ∈ (BackupWin.run_backup cfg now s e d entries).successful
    ∧ c ∉ (BackupWin.run_backup cfg now s e d entries).failed
    ∧ (BackupWin.run_backup cfg now s e d entries).report =
        some (BackupWin.generate_report
          (BackupWin.run_backup cfg now s e d entries).successful
          (BackupWin.run_backup cfg now s e d entries).failed s e d) := by
  refine ⟨?_, ?_, ?_, ?_, ?_⟩
  · simp only [BackupWin.processCandidate]
    exact hoc
  · simp [BackupWin.processCandidate, BackupWin.safe_delete_subfolder, hdel]
  · have : BackupWin.processCandidate cfg c ∈
        ((BackupWin.get_subfolders_to_backup cfg now entries).map
          (BackupWin.processCandidate cfg)).filter
            (fun r => decide (r.outcome = BackupWin.TransferOutcome.Succeeded)) :=
      List.mem_filter.mpr
        ⟨List.mem_map_of_mem _ hc, by simp [BackupWin.processCandidate, hoc]⟩
    exact List.mem_map_of_mem (fun r => r.entry) this
  · intro hmem
    rcases List.mem_map.mp hmem with ⟨r, hrf, hre⟩
    rcases List.mem_filter.mp hrf with ⟨hrm, hneg⟩
    rcases List.mem_map.mp hrm with ⟨c2, -, rfl⟩
    have hc2 : c2 = c := hre
    rw [hc2] at hneg
    simp [BackupWin.processCandidate, hoc] at hneg
  · have hne : BackupWin.get_subfolders_to_backup cfg now entries ≠ [] := by
      intro hnil
      rw [hnil] at hc
      cases hc
    simp only [BackupWin.run_backup]
    rw [if_neg (by simpa using hne)]

/-- Witness for C7: a verified, succeeded candidate whose `rmtree` fails. -/
theorem claim_C7_witness :
    (let cfg : BackupWin.Config := ⟨[], 100, true, true, ["dst"]⟩
     let f : BackupWin.FileRec := ⟨["a.txt"], 0, false, true, some "d", some "d"⟩
     let c : BackupWin.Entry := ⟨"good", true, [f], false⟩
     (BackupWin.processCandidate cfg c).outcome = BackupWin.TransferOutcome.Succeeded
      ∧ (BackupWin.processCandidate cfg c).deleted = false
      ∧ c ∈ (BackupWin.run_backup cfg 1000 "s" "e" "d" [c]).successful
      ∧ c ∉ (BackupWin.run_backup cfg 1000 "s" "e" "d" [c]).failed
      ∧ (BackupWin.run_backup cfg 1000 "s" "e" "d" [c]).report =
          some (BackupWin.generate_report
            (BackupWin.run_backup cfg 1000 "s" "e" "d" [c]).successful
            (BackupWin.run_backup cfg 1000 "s" "e" "d" [c]).failed "s" "e" "d")) :=
  claim_C7 _ 1000 "s" "e" "d" _ _ (by decide) (by decide) (by decide)

/-- C8, counterexample to "at the end of every backup run a report is
emitted": a run that finds no candidate subfolders returns early and writes
no report at all. -/
theorem claim_C8_counterexample :
    (BackupWin.run_backup ⟨[], 2592000, true, false, ["dst"]⟩ 0 "s" "e" "d" []).report
      = none := rfl

/-- C8 (amended): at the end of every backup run that found at least one
candidate, the orchestrator emits a report headed "Backup Task Report" that
contains the start time, end time, duration, the counts of succeeded and
failed candidates, and one "- <path>" line per failed item. -/
theorem claim_C8 (cfg : BackupWin.Config) (now : Int) (s e d : String)
    (entries : List BackupWin.Entry)
    (h : BackupWin.get_subfolders_to_backup cfg now entries ≠ []) :
    ∃ rep, (BackupWin.run_backup cfg now s e d entries).report = some rep
      ∧ rep.head? = some "Backup Task Report"
      ∧ ("Start Time: " ++ s) ∈ rep
      ∧ ("End Time: " ++ e) ∈ rep
      ∧ ("Total Duration: " ++ d) ∈ rep
      ∧ ("Successful: " ++
          toString (BackupWin.run_backup cfg now s e d entries).successful.length) ∈ rep
      ∧ ("Failed: " ++
          toString (BackupWin.run_backup cfg now s e d entries).failed.length) ∈ rep
      ∧ ∀ c ∈ (BackupWin.run_backup cfg now s e d entries).failed,
          ("- " ++ c.name) ∈ rep := by
  refine ⟨BackupWin.generate_report
    (BackupWin.run_backup cfg now s e d entries).successful
    (BackupWin.run_backup cfg now s e d entries).failed s e d, ?_, ?_, ?_, ?_, ?_, ?_, ?_, ?_⟩
  · simp only [BackupWin.run_backup]
    rw [if_neg (by simpa using h)]
  · rfl
  · simp [BackupWin.generate_report]
  · simp [BackupWin.generate_report]
  · simp [BackupWin.generate_report]
  · simp [BackupWin.generate_report]
  · simp [BackupWin.generate_report]
  · intro c hcf
    simp only [BackupWin.generate_report, List.mem_append, List.mem_cons]
    right
    exact List.mem_map_of_mem _ hcf

/-- Witness for C8 at a concrete run with one succeeded and one failed
candidate. -/
theorem claim_C8_witness :
    (let cfg : BackupWin.Config := ⟨[], 100, true, false, ["dst"]⟩
     let eOk : BackupWin.Entry := ⟨"good", true, [⟨["a.txt"], 0, false, true, some "d", some "d"⟩], true⟩
     let eBad : BackupWin.Entry := ⟨"bad", true, [⟨["b.txt"], 0, false, false, some "d", some "d"⟩], true⟩
     ∃ rep, (BackupWin.run_backup cfg 1000 "s" "e" "d" [eOk, eBad]).report = some rep
      ∧ rep.head? = some "Backup Task Report"
      ∧ ("Start Time: " ++ "s") ∈ rep
      ∧ ("End Time: " ++ "e") ∈ rep
      ∧ ("Total Duration: " ++ "d") ∈ rep
      ∧ ("Successful: " ++
          toString (BackupWin.run_backup cfg 1000 "s" "e" "d" [eOk, eBad]).successful.length) ∈ rep
      ∧ ("Failed: " ++
          toString (BackupWin.run_backup cfg 1000 "s" "e" "d" [eOk, eBad]).failed.length) ∈ rep
      ∧ ∀ c ∈ (BackupWin.run_backup cfg 1000 "s" "e" "d" [eOk, eBad]).failed,
          ("- " ++ c.name) ∈ rep) :=
  claim_C8 _ 1000 "s" "e" "d" _ (by decide)

/-- C9: when computing the digest of either the source or the destination
file raises, `verify_files` returns `False` instead of propagating the
error; consequently a candidate whose copies all succeeded but which
contains such a file is recorded as `FailedVerification`, never as
`Succeeded`. -/
theorem claim_C9 (files : List BackupWin.FileRec) (f : BackupWin.FileRec)
    (hmem : f ∈ files) (hcopy : ∀ g ∈ files, g.copyOk = true)
    (herr : f.srcDigest = none ∨ f.dstDigest = none) :
    BackupWin.verify_files f.srcDigest f.dstDigest = false
    ∧ BackupWin.backup_subfolder_outcome true files =
        BackupWin.TransferOutcome.FailedVerification
    ∧ BackupWin.backup_subfolder_outcome true files ≠
        BackupWin.TransferOutcome.Succeeded := by
  have hvf : BackupWin.verify_files f.srcDigest f.dstDigest = false := by
    rcases herr with h1 | h2
    · rw [h1]
      rfl
    · cases h3 : f.srcDigest <;> rw [h2] <;> rfl
  have hall : files.all (fun g => g.copyOk) = true :=
    List.all_eq_true.mpr hcopy
  have hver : files.all
      (fun g => BackupWin.verify_files g.srcDigest g.dstDigest) = false :=
    List.all_eq_false.mpr ⟨f, hmem, by simp [hvf]⟩
  have hout : BackupWin.backup_subfolder_outcome true files =
      BackupWin.TransferOutcome.FailedVerification := by
    rw [BackupWin.backup_subfolder_outcome, if_pos hall, if_pos rfl, if_neg]
    simp [hver]
  exact ⟨hvf, hout, by rw [hout]; intro hcontra; cases hcontra⟩

/-- Witness for C9: a single-file candidate whose source digest computation
raises. -/
theorem claim_C9_witness :
    (let f : BackupWin.FileRec := ⟨["a.txt"], 0, false, true, none, some "d"⟩
     BackupWin.verify_files f.srcDigest f.dstDigest = false
      ∧ BackupWin.backup_subfolder_outcome true [f] =
          BackupWin.TransferOutcome.FailedVerification
      ∧ BackupWin.backup_subfolder_outcome true [f] ≠
          BackupWin.TransferOutcome.Succeeded) :=
  claim_C9 _ _ (by decide) (by decide) (by decide)

/-- The keys of the batch manifest are exactly the relative paths of the
files whose digest computation succeeded, in order. -/
theorem SrcUtils.batch_keys (files : List SrcUtils.DigFile) :
    (SrcUtils.calculate_md5_md5sum_batch files).map Prod.fst =
      (files.filter (fun g => g.digest.isSome)).map (fun g => g.rel) := by
  induction files with
  | nil => rfl
  | cons f fs ih =>
    simp only [SrcUtils.calculate_md5_md5sum_batch, List.filterMap_cons] at ih ⊢
    cases hd : f.digest with
    | none =>
      rw [List.filter_cons_of_neg (by simp [hd])]
      simpa [hd] using ih
    | some dg =>
      rw [List.filter_cons_of_pos (by simp [hd])]
      simpa [hd] using ih

/-- C10: a file whose `md5sum` invocation raises is silently dropped from
the batch manifest: the key list is exactly the successful files' relative
paths, the failing file's path is absent, every key comes from a present
file, and the manifest has strictly fewer entries than the tree has
files. -/
theorem claim_C10 (files : List SrcUtils.DigFile)
    (hnd : (files.map (fun g => g.rel)).Nodup)
    (f : SrcUtils.DigFile) (hmem : f ∈ files) (hfail : f.digest = none) :
    ((SrcUtils.calculate_md5_md5sum_batch files).map Prod.fst =
      (files.filter (fun g => g.digest.isSome)).map (fun g => g.rel))
    ∧ f.rel ∉ (SrcUtils.calculate_md5_md5sum_batch files).map Prod.fst
    ∧ (∀ k ∈ (SrcUtils.calculate_md5_md5sum_batch files).map Prod.fst,
        k ∈ files.map (fun g => g.rel))
    ∧ (SrcUtils.calculate_md5_md5sum_batch files).length < files.length := by
  refine ⟨SrcUtils.batch_keys files, ?_, ?_, ?_⟩
  · rw [SrcUtils.batch_keys]
    intro hk
    rcases List.mem_map.mp hk with ⟨g, hgf, hgr⟩
    rcases List.mem_filter.mp hgf with ⟨hgmem, hgsome⟩
    have hgf2 : g = f := List.inj_on_of_nodup_map hnd hgmem hmem hgr
    rw [hgf2, hfail] at hgsome
    cases hgsome
  · rw [SrcUtils.batch_keys]
    intro k hk
    rcases List.mem_map.mp hk with ⟨g, hgf, rfl⟩
    exact List.mem_map_of_mem _ (List.mem_filter.mp hgf).1
  · have hlen : (SrcUtils.calculate_md5_md5sum_batch files).length =
        (files.filter (fun g => g.digest.isSome)).length := by
      have := congrArg List.length (SrcUtils.batch_keys files)
      simpa using this
    rw [hlen, ← List.countP_eq_length_filter]
    have hsplit := List.length_eq_countP_add_countP
      (p := fun g : SrcUtils.DigFile => g.digest.isSome) (l := files)
    have hpos : 0 < files.countP
        (fun g : SrcUtils.DigFile => !g.digest.isSome) := by
      refine List.countP_pos_iff.mpr ⟨f, hmem, ?_⟩
      simp [hfail]
    have hcong : files.countP
        (fun g : SrcUtils.DigFile => !g.digest.isSome) =
        files.countP (fun g : SrcUtils.DigFile => ¬ g.digest.isSome = true) := by
      refine List.countP_congr (fun g _ => ?_)
      simp
    omega

/-- Witness for C10: a two-file tree where the second file's digest
computation fails. -/
theorem claim_C10_witness :
    (let fOk : SrcUtils.DigFile := ⟨['a'], some ['1', '2']⟩
     let fBad : SrcUtils.DigFile := ⟨['b'], none⟩
     ((SrcUtils.calculate_md5_md5sum_batch [fOk, fBad]).map Prod.fst =
        ([fOk, fBad].filter (fun g => g.digest.isSome)).map (fun g => g.rel))
      ∧ fBad.rel ∉ (SrcUtils.calculate_md5_md5sum_batch [fOk, fBad]).map Prod.fst
      ∧ (∀ k ∈ (SrcUtils.calculate_md5_md5sum_batch [fOk, fBad]).map Prod.fst,
          k ∈ [fOk, fBad].map (fun g => g.rel))
      ∧ (SrcUtils.calculate_md5_md5sum_batch [fOk, fBad]).length < [fOk, fBad].length) :=
  claim_C10 _ (by decide) _ (by decide) (by decide)

/-- A list all of whose characters are non-whitespace is unchanged by a
leading-whitespace drop. -/
theorem SrcUtils.dropWhile_ws_of_all {l : List Char}
    (h : ∀ c ∈ l, SrcUtils.isPyWs c = false) :
    l.dropWhile SrcUtils.isPyWs = l := by
  cases l with
  | nil => rfl
  | cons c t =>
    exact List.dropWhile_cons_of_neg (by simp [h c (List.mem_cons_self _ _)])

/-- `strip()` leaves a fully non-whitespace string unchanged. -/
theorem SrcUtils.strip_of_all {l : List Char}
    (h : ∀ c ∈ l, SrcUtils.isPyWs c = false) :
    SrcUtils.stripChars l = l := by
  rw [SrcUtils.stripChars, SrcUtils.dropWhile_ws_of_all h,
    SrcUtils.dropWhile_ws_of_all (fun c hc => h c (List.mem_reverse.mp hc)),
    List.reverse_reverse]

/-- A nonempty list unchanged by a leading-whitespace drop starts with a
non-whitespace character. -/
theorem SrcUtils.head_not_ws {c : Char} {t : List Char}
    (h : (c :: t).dropWhile SrcUtils.isPyWs = c :: t) :
    SrcUtils.isPyWs c = false := by
  have h2 := List.dropWhile_eq_self_iff.mp h (by simp)
  simpa using h2

/-- `strip()` removes exactly the trailing `'\n'` from a line whose body
has no leading and no trailing whitespace. -/
theorem SrcUtils.strip_append_newline {l : List Char}
    (hL : l.dropWhile SrcUtils.isPyWs = l)
    (hR : l.reverse.dropWhile SrcUtils.isPyWs = l.reverse) :
    SrcUtils.stripChars (l ++ ['\n']) = l := by
  cases l with
  | nil => rfl
  | cons c t =>
    have hwc : SrcUtils.isPyWs c = false := SrcUtils.head_not_ws hL
    have h1 : (c :: (t ++ ['\n'])).dropWhile SrcUtils.isPyWs = c :: (t ++ ['\n']) :=
      List.dropWhile_cons_of_neg (by simp [hwc])
    have h2 : (c :: (t ++ ['\n'])).reverse = '\n' :: (c :: t).reverse := by
      simp
    rw [SrcUtils.stripChars, List.cons_append, h1, h2,
      List.dropWhile_cons_of_pos (by decide), hR, List.reverse_reverse]

/-- `split("  ", 1)` on `d ++ "  " ++ r` cuts at the shown separator when
`d` contains no space. -/
theorem SrcUtils.splitTwoSpaces_append {d : List Char} (r : List Char)
    (h : ∀ c ∈ d, ¬ c = ' ') :
    SrcUtils.splitTwoSpaces (d ++ ' ' :: ' ' :: r) = some (d, r) := by
  induction d with
  | nil => simp [SrcUtils.splitTwoSpaces]
  | cons c0 tl ih =>
    have hc0 : ¬ c0 = ' ' := h c0 (List.mem_cons_self _ _)
    cases tl with
    | nil => simp [SrcUtils.splitTwoSpaces, hc0]
    | cons c1 tt =>
      have hrec := ih (fun c hc => h c (List.mem_cons_of_mem _ hc))
      simp only [List.cons_append] at hrec ⊢
      simp [SrcUtils.splitTwoSpaces, hc0, hrec]

/-- Line iteration pulls off a newline-terminated first line whose body has
no newline. -/
theorem SrcUtils.splitLines_append {l : List Char} (r : List Char)
    (h : ∀ c ∈ l, ¬ c = '\n') :
    SrcUtils.splitLines (l ++ '\n' :: r) =
      (l ++ ['\n']) :: SrcUtils.splitLines r := by
  induction l with
  | nil => simp [SrcUtils.splitLines]
  | cons c t ih =>
    have hc : ¬ c = '\n' := h c (List.mem_cons_self _ _)
    have hrec := ih (fun x hx => h x (List.mem_cons_of_mem _ hx))
    simp only [List.cons_append]
    simp [SrcUtils.splitLines, hc, hrec]

/-- Reading back one well-formed manifest line recovers its entry. -/
theorem SrcUtils.readLine_entry {p d : List Char}
    (hd : ∀ c ∈ d, SrcUtils.isPyWs c = false)
    (hL : p.dropWhile SrcUtils.isPyWs = p)
    (hR : p.reverse.dropWhile SrcUtils.isPyWs = p.reverse) :
    SrcUtils.readLine ((d ++ ' ' :: ' ' :: p) ++ ['\n']) = some (p, d) := by
  have hsp : ∀ c ∈ d, ¬ c = ' ' := by
    intro c hc he
    rw [he] at hc
    exact absurd (hd ' ' hc) (by decide)
  have harr : (d ++ ' ' :: ' ' :: p) ++ ['\n'] = d ++ ' ' :: ' ' :: (p ++ ['\n']) := by
    simp
  rw [SrcUtils.readLine, harr, SrcUtils.splitTwoSpaces_append _ hsp]
  simp only [Option.map_some']
  rw [SrcUtils.strip_append_newline hL hR, SrcUtils.strip_of_all hd]

/-- C4 (amended): the manifest format round-trips exactly for every mapping
whose digests contain no whitespace and whose paths contain no newline
characters and no leading or trailing whitespace — including the empty
mapping, single-entry mappings, and paths with interior spaces.  (The claim
as stated, for *every* mapping, fails: `read_md5_file` strips each parsed
path, so a path with leading or trailing whitespace does not survive; see
the counterexample.) -/
theorem claim_C4 (m : List (List Char × List Char))
    (h : ∀ pd ∈ m, SrcUtils.CleanEntry pd) :
    SrcUtils.readManifest (SrcUtils.writeManifest m) = some m := by
  induction m with
  | nil => rfl
  | cons pd tl ih =>
    obtain ⟨hdws, hpnl, hL, hR⟩ := h pd (List.mem_cons_self _ _)
    have htl := ih (fun x hx => h x (List.mem_cons_of_mem _ hx))
    obtain ⟨p, d⟩ := pd
    have hw : SrcUtils.writeManifest ((p, d) :: tl) =
        (d ++ ' ' :: ' ' :: p) ++ '\n' :: SrcUtils.writeManifest tl := by
      simp [SrcUtils.writeManifest]
    have hnl : ∀ c ∈ (d ++ ' ' :: ' ' :: p), ¬ c = '\n' := by
      intro c hc
      rcases List.mem_append.mp hc with h1 | h2
      · intro he
        rw [he] at h1
        exact absurd (hdws '\n' h1) (by decide)
      · simp only [List.mem_cons] at h2
        rcases h2 with rfl | rfl | h3
        · decide
        · decide
        · exact (hpnl c h3).1
    rw [SrcUtils.readManifest] at htl ⊢
    rw [hw, SrcUtils.splitLines_append _ hnl, SrcUtils.readLines,
      SrcUtils.readLine_entry hdws hL hR, htl]

/-- C4, counterexample to the claim as stated for *every* mapping: the
single-entry mapping whose path is `" a"` (leading space) comes back with
the path stripped to `"a"`. -/
theorem claim_C4_counterexample :
    SrcUtils.readManifest (SrcUtils.writeManifest [([' ', 'a'], ['d'])])
      ≠ some [([' ', 'a'], ['d'])] := by decide

/-- Witness for C4: a single-entry mapping whose path `"a b"` contains an
interior space round-trips exactly. -/
theorem claim_C4_witness :
    (∀ pd ∈ [((['a', ' ', 'b'] : List Char), (['d', '1'] : List Char))],
        SrcUtils.CleanEntry pd)
    ∧ SrcUtils.readManifest
        (SrcUtils.writeManifest [(['a', ' ', 'b'], ['d', '1'])])
        = some [(['a', ' ', 'b'], ['d', '1'])] :=
  ⟨by decide, claim_C4 _ (by decide)⟩

/-- The key column of the left (first-manifest) rows of the join. -/
theorem SrcUtils.compare_keys_left (m2 m : List (List Char × List Char)) :
    (m.map (fun kv =>
        ((kv.1, some kv.2, m2.lookup kv.1) :
          List Char × Option (List Char) × Option (List Char)))).map (fun r => r.1)
      = m.map Prod.fst := by
  induction m with
  | nil => rfl
  | cons kv tl ih => simp only [List.map_cons, ih]

/-- The key column of the right (second-manifest-only) rows of the join. -/
theorem SrcUtils.compare_keys_right (m1keys : List (List Char))
    (m : List (List Char × List Char)) :
    ((m.filter (fun kv => !(m1keys.contains kv.1))).map (fun kv =>
        ((kv.1, none, some kv.2) :
          List Char × Option (List Char) × Option (List Char)))).map (fun r => r.1)
      = (m.map Prod.fst).filter (fun k => !(m1keys.contains k)) := by
  induction m with
  | nil => rfl
  | cons kv tl ih =>
    by_cases hk : m1keys.contains kv.1
    · rw [List.filter_cons_of_neg (by simp_all), List.map_cons,
        List.filter_cons_of_neg (by simp_all), ih]
    · rw [List.filter_cons_of_pos (by simp_all), List.map_cons, List.map_cons,
        List.map_cons, List.filter_cons_of_pos (by simp_all), ih]

/-- The key column of the whole join table: the first manifest's keys
followed by the second manifest's keys that the first does not hold. -/
theorem SrcUtils.compare_keys (m1 m2 : List (List Char × List Char)) :
    (SrcUtils.compare_md5_table m1 m2).map (fun r => r.1) =
      m1.map Prod.fst ++
        (m2.map Prod.fst).filter (fun k => !((m1.map Prod.fst).contains k)) := by
  rw [SrcUtils.compare_md5_table, List.map_append, SrcUtils.compare_keys_left,
    SrcUtils.compare_keys_right]

/-- In a duplicate-free list, a member is counted exactly once (stated for
the ambient `BEq` instance of the key type). -/
theorem SrcUtils.count_eq_one_of_nodup_mem {α : Type} [BEq α] [LawfulBEq α]
    {l : List α} {a : α} (hnd : l.Nodup) (ha : a ∈ l) : l.count a = 1 := by
  induction l with
  | nil => cases ha
  | cons b t ih =>
    rcases List.mem_cons.mp ha with rfl | hat
    · rw [List.count_cons_self]
      rw [List.count_eq_zero.mpr (List.nodup_cons.mp hnd).1]
    · have hne : a ≠ b := by
        rintro rfl
        exact (List.nodup_cons.mp hnd).1 hat
      rw [List.count_cons_of_ne hne, ih (List.nodup_cons.mp hnd).2 hat]

/-- C3, counterexample to the claim as stated for *every* pair of
manifests: with an empty first manifest and a second manifest holding the
path `a`, `read_md5_file` yields a column-less `pd.DataFrame([])` and the
`merge(..., on="file")` raises an uncaught `KeyError`, so the program
produces no reconciliation table at all and `a` is never reported as
mismatched. -/
theorem claim_C3_counterexample :
    SrcUtils.compare_md5 [] [(['a'], ['1'])] = none := rfl

/-- C3 (amended): for every pair of *nonempty* manifests (mappings, so with
pairwise distinct keys), `compare_md5` produces the outer-join table and
its mismatch subset; the table holds a row for a relative path iff the path
is in either manifest, that path's row is unique (key count one), a row
missing either digest always compares as mismatched, and a path present in
only one manifest yields a row in the mismatch table.  (The claim as
stated, over every pair of manifests, fails for an empty side: the merge
raises `KeyError` and nothing is reported; see the counterexample.) -/
theorem claim_C3 (m1 m2 : List (List Char × List Char))
    (hne1 : m1 ≠ []) (hne2 : m2 ≠ [])
    (h1 : (m1.map Prod.fst).Nodup) (h2 : (m2.map Prod.fst).Nodup) :
    SrcUtils.compare_md5 m1 m2 =
      some (SrcUtils.compare_md5_table m1 m2, SrcUtils.compare_md5_diff m1 m2)
    ∧ (∀ k, (∃ r ∈ SrcUtils.compare_md5_table m1 m2, r.1 = k) ↔
        (k ∈ m1.map Prod.fst ∨ k ∈ m2.map Prod.fst))
    ∧ (∀ k, k ∈ m1.map Prod.fst ∨ k ∈ m2.map Prod.fst →
        ((SrcUtils.compare_md5_table m1 m2).map (fun r => r.1)).count k = 1)
    ∧ (∀ r ∈ SrcUtils.compare_md5_table m1 m2,
        r.2.1 = none ∨ r.2.2 = none → SrcUtils.md5_neq r.2.1 r.2.2 = true)
    ∧ (∀ k, ((k ∈ m1.map Prod.fst ∧ k ∉ m2.map Prod.fst) ∨
            (k ∉ m1.map Prod.fst ∧ k ∈ m2.map Prod.fst)) →
        ∃ r ∈ SrcUtils.compare_md5_diff m1 m2, r.1 = k) := by
  refine ⟨?_, ?_, ?_, ?_, ?_⟩
  · rw [SrcUtils.compare_md5, if_neg]
    simp [hne1, hne2]
  · intro k
    constructor
    · rintro ⟨r, hr, rfl⟩
      have hmem : r.1 ∈ (SrcUtils.compare_md5_table m1 m2).map (fun r => r.1) :=
        List.mem_map_of_mem _ hr
      rw [SrcUtils.compare_keys] at hmem
      rcases List.mem_append.mp hmem with hmL | hmR
      · exact Or.inl hmL
      · exact Or.inr (List.mem_filter.mp hmR).1
    · intro hk
      by_cases hk1 : k ∈ m1.map Prod.fst
      · rcases List.mem_map.mp hk1 with ⟨kv, hkv, rfl⟩
        exact ⟨(kv.1, some kv.2, m2.lookup kv.1),
          List.mem_append_left _ (List.mem_map_of_mem _ hkv), rfl⟩
      · rcases hk with hk1' | hk2
        · exact absurd hk1' hk1
        · rcases List.mem_map.mp hk2 with ⟨kv, hkv, rfl⟩
          refine ⟨(kv.1, none, some kv.2), List.mem_append_right _ ?_, rfl⟩
          refine List.mem_map_of_mem _ (List.mem_filter.mpr ⟨hkv, ?_⟩)
          simp only [List.contains, Bool.not_eq_true', List.elem_eq_mem,
            decide_eq_false_iff_not]
          exact hk1
  · intro k hk
    rw [SrcUtils.compare_keys, List.count_append]
    by_cases hk1 : k ∈ m1.map Prod.fst
    · have hc1 : (m1.map Prod.fst).count k = 1 :=
        SrcUtils.count_eq_one_of_nodup_mem h1 hk1
      have hc2 : ((m2.map Prod.fst).filter
          (fun x => !((m1.map Prod.fst).contains x))).count k = 0 := by
        rw [List.count_eq_zero]
        intro hmem
        have hpred := (List.mem_filter.mp hmem).2
        simp only [List.contains, Bool.not_eq_true', List.elem_eq_mem,
          decide_eq_false_iff_not] at hpred
        exact hpred hk1
      omega
    · have hk2 : k ∈ m2.map Prod.fst := by
        rcases hk with h | h
        · exact absurd h hk1
        · exact h
      have hc1 : (m1.map Prod.fst).count k = 0 := List.count_eq_zero.mpr hk1
      have hc2 : ((m2.map Prod.fst).filter
          (fun x => !((m1.map Prod.fst).contains x))).count k = 1 := by
        refine SrcUtils.count_eq_one_of_nodup_mem (List.Nodup.filter _ h2) ?_
        refine List.mem_filter.mpr ⟨hk2, ?_⟩
        simp only [List.contains, Bool.not_eq_true', List.elem_eq_mem,
          decide_eq_false_iff_not]
        exact hk1
      omega
  · intro r hr hnone
    rcases hnone with hn | hn
    · rw [hn]
      cases r.2.2 <;> rfl
    · rw [hn]
      cases r.2.1 <;> rfl
  · intro k hk
    rcases hk with ⟨hk1, hk2⟩ | ⟨hk1, hk2⟩
    · rcases List.mem_map.mp hk1 with ⟨kv, hkv, rfl⟩
      have hlk : m2.lookup kv.1 = none := by
        rw [List.lookup_eq_none_iff]
        intro p hp
        simp only [bne_iff_ne]
        intro he
        exact hk2 (he ▸ List.mem_map_of_mem _ hp)
      refine ⟨(kv.1, some kv.2, m2.lookup kv.1), ?_, rfl⟩
      refine List.mem_filter.mpr ⟨List.mem_append_left _ (List.mem_map_of_mem _ hkv), ?_⟩
      rw [hlk]
      rfl
    · rcases List.mem_map.mp hk2 with ⟨kv, hkv, rfl⟩
      refine ⟨(kv.1, none, some kv.2), ?_, rfl⟩
      refine List.mem_filter.mpr ⟨List.mem_append_right _ ?_, rfl⟩
      refine List.mem_map_of_mem _ (List.mem_filter.mpr ⟨hkv, ?_⟩)
      simp only [List.contains, Bool.not_eq_true', List.elem_eq_mem,
        decide_eq_false_iff_not]
      exact hk1

/-- Witness for C3 on the spec's example: manifest A maps `a` to digest `1`
and `b` to `2`; manifest B maps `a` to `1` and `c` to `3`. -/
theorem claim_C3_witness :
    (let mA : List (List Char × List Char) := [(['a'], ['1']), (['b'], ['2'])]
     let mB : List (List Char × List Char) := [(['a'], ['1']), (['c'], ['3'])]
     SrcUtils.compare_md5 mA mB =
        some (SrcUtils.compare_md5_table mA mB, SrcUtils.compare_md5_diff mA mB)
      ∧ (∀ k, (∃ r ∈ SrcUtils.compare_md5_table mA mB, r.1 = k) ↔
        (k ∈ mA.map Prod.fst ∨ k ∈ mB.map Prod.fst))
      ∧ (∀ k, k ∈ mA.map Prod.fst ∨ k ∈ mB.map Prod.fst →
          ((SrcUtils.compare_md5_table mA mB).map (fun r => r.1)).count k = 1)
      ∧ (∀ r ∈ SrcUtils.compare_md5_table mA mB,
          r.2.1 = none ∨ r.2.2 = none → SrcUtils.md5_neq r.2.1 r.2.2 = true)
      ∧ (∀ k, ((k ∈ mA.map Prod.fst ∧ k ∉ mB.map Prod.fst) ∨
              (k ∉ mA.map Prod.fst ∧ k ∈ mB.map Prod.fst)) →
          ∃ r ∈ SrcUtils.compare_md5_diff mA mB, r.1 = k)) :=
  claim_C3 _ _ (by decide) (by decide) (by decide) (by decide)

/-- A zero-padded field has exactly its width in characters. -/
theorem BackupWin.padNum_length (w n : Nat) : (BackupWin.padNum w n).length = w := by
  induction w generalizing n with
  | zero => rfl
  | succ w ih => simp [BackupWin.padNum, ih]

/-- The code of a decimal digit character. -/
theorem BackupWin.decDigit_toNat {d : Nat} (h : d < 10) :
    (BackupWin.decDigit d).toNat = 48 + d := by
  interval_cases d <;> rfl

/-- Reading back a zero-padded field recovers the number when it fits the
width. -/
theorem BackupWin.readNat_padNum {w n : Nat} (h : n < 10 ^ w) :
    BackupWin.readNat (BackupWin.padNum w n) = n := by
  induction w generalizing n with
  | zero =>
    rw [Nat.pow_zero] at h
    have hn : n = 0 := by omega
    rw [hn]
    rfl
  | succ w ih =>
    have hdiv : n / 10 < 10 ^ w := by
      rw [Nat.div_lt_iff_lt_mul (by omega)]
      rw [Nat.pow_succ] at h
      exact h
    have hmod : n % 10 < 10 := Nat.mod_lt _ (by omega)
    have hrd := ih hdiv
    simp only [BackupWin.readNat] at hrd ⊢
    simp only [BackupWin.padNum, List.foldl_append, List.foldl_cons, List.foldl_nil]
    rw [hrd, BackupWin.decDigit_toNat hmod]
    omega

/-- Zero-padded rendering is injective on numbers that fit the width. -/
theorem BackupWin.padNum_inj {w n m : Nat} (hn : n < 10 ^ w) (hm : m < 10 ^ w)
    (h : BackupWin.padNum w n = BackupWin.padNum w m) : n = m := by
  have h2 := congrArg BackupWin.readNat h
  rwa [BackupWin.readNat_padNum hn, BackupWin.readNat_padNum hm] at h2

/-- `%Y%m%d_%H%M%S` is injective on in-range datetimes: equal timestamp
strings force equal instants (at second granularity). -/
theorem BackupWin.ts_inj {t1 t2 : BackupWin.DateTime}
    (hb1 : BackupWin.BoundedDT t1) (hb2 : BackupWin.BoundedDT t2)
    (h : BackupWin.timestampChars t1 = BackupWin.timestampChars t2) : t1 = t2 := by
  obtain ⟨y1, mo1, d1, ho1, mi1, s1⟩ := t1
  obtain ⟨y2, mo2, d2, ho2, mi2, s2⟩ := t2
  obtain ⟨hby1, hbmo1, hbd1, hbho1, hbmi1, hbs1⟩ := hb1
  obtain ⟨hby2, hbmo2, hbd2, hbho2, hbmi2, hbs2⟩ := hb2
  have e4 : (10000 : Nat) = 10 ^ 4 := by norm_num
  have e2 : (100 : Nat) = 10 ^ 2 := by norm_num
  rw [e4] at hby1 hby2
  rw [e2] at hbmo1 hbmo2 hbd1 hbd2 hbho1 hbho2 hbmi1 hbmi2 hbs1 hbs2
  simp only [BackupWin.timestampChars, List.append_assoc] at h
  obtain ⟨hy, h⟩ := List.append_inj h (by simp [BackupWin.padNum_length])
  obtain ⟨hmo, h⟩ := List.append_inj h (by simp [BackupWin.padNum_length])
  obtain ⟨hd, h⟩ := List.append_inj h (by simp [BackupWin.padNum_length])
  injection h with hu h
  obtain ⟨hho, h⟩ := List.append_inj h (by simp [BackupWin.padNum_length])
  obtain ⟨hmi, hs⟩ := List.append_inj h (by simp [BackupWin.padNum_length])
  simp only [BackupWin.DateTime.mk.injEq]
  exact ⟨BackupWin.padNum_inj hby1 hby2 hy, BackupWin.padNum_inj hbmo1 hbmo2 hmo,
    BackupWin.padNum_inj hbd1 hbd2 hd, BackupWin.padNum_inj hbho1 hbho2 hho,
    BackupWin.padNum_inj hbmi1 hbmi2 hmi, BackupWin.padNum_inj hbs1 hbs2 hs⟩

/-- C5: every file a run writes lands under the run-scoped subtree
`dst_dir / <run timestamp> / ...`, and two runs whose start instants differ
(at the second granularity the timestamp token carries) write disjoint path
sets against the same destination root — destination writes are additive
and never touch a prior run's subtree. -/
theorem claim_C5 (cfg : BackupWin.Config) (t1 t2 : BackupWin.DateTime)
    (now1 now2 : Int) (E1 E2 : List BackupWin.Entry)
    (hb1 : BackupWin.BoundedDT t1) (hb2 : BackupWin.BoundedDT t2) (hne : t1 ≠ t2) :
    (∀ p ∈ BackupWin.writtenPaths cfg t1 now1 E1,
      ∃ rest, p = cfg.dst_dir ++ BackupWin.timestampStr t1 :: rest)
    ∧ (∀ p ∈ BackupWin.writtenPaths cfg t1 now1 E1,
       ∀ q ∈ BackupWin.writtenPaths cfg t2 now2 E2, p ≠ q) := by
  have hts : BackupWin.timestampStr t1 ≠ BackupWin.timestampStr t2 := by
    intro he
    apply hne
    apply BackupWin.ts_inj hb1 hb2
    have h2 := congrArg String.data he
    simpa [BackupWin.timestampStr] using h2
  have hshape : ∀ (t : BackupWin.DateTime) (now : Int) (E : List BackupWin.Entry),
      ∀ p ∈ BackupWin.writtenPaths cfg t now E,
        ∃ rest, p = cfg.dst_dir ++ BackupWin.timestampStr t :: rest := by
    intro t now E p hp
    rcases List.mem_flatMap.mp hp with ⟨c, hc, hpc⟩
    rcases List.mem_map.mp hpc with ⟨f, hf, rfl⟩
    exact ⟨c.name :: f.rel, rfl⟩
  refine ⟨hshape t1 now1 E1, ?_⟩
  intro p hp q hq hpq
  obtain ⟨r1, rfl⟩ := hshape t1 now1 E1 p hp
  obtain ⟨r2, he2⟩ := hshape t2 now2 E2 q hq
  rw [he2] at hpq
  have h3 := List.append_cancel_left hpq
  injection h3 with h4 h5
  exact hts h4

/-- Witness for C5: two runs one second apart, against the same destination
root, each writing one file. -/
theorem claim_C5_witness :
    (let cfg : BackupWin.Config := ⟨[], 100, true, false, ["dst"]⟩
     let t1 : BackupWin.DateTime := ⟨2025, 1, 2, 3, 4, 5⟩
     let t2 : BackupWin.DateTime := ⟨2025, 1, 2, 3, 4, 6⟩
     let e : BackupWin.Entry :=
       ⟨"sub", true, [⟨["a.txt"], 0, false, true, some "d", some "d"⟩], true⟩
     (∀ p ∈ BackupWin.writtenPaths cfg t1 1000 [e],
        ∃ rest, p = cfg.dst_dir ++ BackupWin.timestampStr t1 :: rest)
      ∧ (∀ p ∈ BackupWin.writtenPaths cfg t1 1000 [e],
         ∀ q ∈ BackupWin.writtenPaths cfg t2 1000 [e], p ≠ q)) :=
  claim_C5 _ _ _ 1000 1000 _ _ (by decide) (by decide) (by decide)
